import Mathlib

/-!
Verification of the Smart Test Report Analyzer.

This file shallowly embeds the extraction, categorization and comparison
engines of the repository (src/analyzer.py and src/Streamlit_app.py) and
proves or refutes the frozen claims about them.

Modelling conventions:
* A parsed document is a list of `Item`s, where an `Item` is either a raw
  text segment (BeautifulSoup `NavigableString`) or an element (`Tag`) with a
  tag name, an attribute list and an ordered list of child items.  The
  tolerant parser itself (BeautifulSoup/lxml) is external to the repository;
  the embedding starts from the parsed tree, and an empty input string
  parses to the empty document.
* `Tag.text` is the concatenation of all descendant strings, `find` searches
  descendants in document order, `find_all(recursive=False)` returns the
  direct element children; these are embedded as `textContent`, `findElems`
  and `directElemChildren`.
* Python truthiness of optional strings (`x or y` chains) is embedded by
  `pyOrOpt` / `pyOrD` / `pyOrStrs`, where `None` and `""` are falsy.
* Python's `re.search(pat, s)` on the fixed alternation-of-literal patterns
  used by `is_test_tag` and `find_test_nodes` is exactly a substring test,
  embedded as `containsSub` / `containsAny`.  The general regex engine used
  by `categorize_message` is treated as an external oracle: the function is
  parameterized by a matcher `String → String → Option Bool`, where `none`
  models a pattern whose compilation raises `re.error` (caught by the code)
  and `some b` models a successful search returning a match or not.
* Machine integers do not occur; all counts are `Nat`.
-/

/-- A node of the tolerantly parsed document: either a raw text segment or
an element with tag name, attributes and children (document order). -/
inductive Item : Type where
  | text : String → Item
  | elem : String → List (String × String) → List Item → Item

/-- A parsed document: the top-level sequence of items (the BeautifulSoup
object's contents). -/
abbrev Doc := List Item

/-- Tag name of an item (text segments have no name; BeautifulSoup gives
them `name = None`, embedded as `""`, and the code never asks for it). -/
def tagOf : Item → String
  | .text _ => ""
  | .elem t _ _ => t

/-- Attribute list of an item. -/
def attrsOf : Item → List (String × String)
  | .text _ => []
  | .elem _ a _ => a

/-- Children (contents) of an item. -/
def childrenOf : Item → List Item
  | .text _ => []
  | .elem _ _ cs => cs

/-- Whether an item is an element (a BeautifulSoup `Tag`). -/
def isElem : Item → Bool
  | .text _ => false
  | .elem _ _ _ => true

/-- `node.get(k)`: first value bound to attribute `k`, if present. -/
def getAttr (node : Item) (k : String) : Option String :=
  ((attrsOf node).find? (fun p => p.1 = k)).map (fun p => p.2)

/-- `node.has_attr(k)`. -/
def hasAttr (node : Item) (k : String) : Bool :=
  (getAttr node k).isSome

mutual
/-- `node.text`: concatenation of all descendant strings (BeautifulSoup
`Tag.text`). -/
def textContent : Item → String
  | .text s => s
  | .elem _ _ cs => textContentList cs

/-- Concatenated text of a list of items. -/
def textContentList : List Item → String
  | [] => ""
  | c :: cs => textContent c ++ textContentList cs
end

mutual
/-- All elements of the subtree rooted at an item, in document (pre-)order,
including the item itself if it is an element: `soup.find_all()` run on the
item. -/
def elemsOfItem : Item → List Item
  | .text _ => []
  | .elem t a cs => Item.elem t a cs :: elemsOfList cs

/-- All elements below a list of items, in document order. -/
def elemsOfList : List Item → List Item
  | [] => []
  | c :: cs => elemsOfItem c ++ elemsOfList cs
end

/-- `node.find_all(recursive=False)`: the direct element children. -/
def directElemChildren (node : Item) : List Item :=
  (childrenOf node).filter isElem

/-- First element with the given tag among all elements below `items`, in
document order: `x.find(t)` where the descendants of `x` are `items`. -/
def findElems (t : String) (items : List Item) : Option Item :=
  (elemsOfList items).find? (fun e => tagOf e = t)

/-- First element of the document in document order: `soup.find()`. -/
def docFirstElem (doc : Doc) : Option Item :=
  (elemsOfList doc).head?

/-- Direct element children of the document's first element (used by the
fallback tiers); `[]` when the document has no element at all. -/
def rootChildren (doc : Doc) : List Item :=
  match docFirstElem doc with
  | some r => directElemChildren r
  | none => []

/-- Python truthiness of an optional string: `None` and `""` are falsy. -/
def pyTruthy : Option String → Option String
  | some s => if s = "" then none else some s
  | none => none

/-- A chain `a or b or ...` of optional strings, `none` if all falsy. -/
def pyOrOpt : List (Option String) → Option String
  | [] => none
  | o :: rest =>
    match pyTruthy o with
    | some s => some s
    | none => pyOrOpt rest

/-- A chain `a or b or ... or dflt` of optional strings with a string
default. -/
def pyOrD (opts : List (Option String)) (dflt : String) : String :=
  match pyOrOpt opts with
  | some s => s
  | none => dflt

/-- A chain `a or b or ...` of plain strings (empty string falsy), `""` if
all are empty. -/
def pyOrStrs : List String → String
  | [] => ""
  | s :: rest => if s ≠ "" then s else pyOrStrs rest

/-- Whether `pat` occurs as a contiguous sublist of `l`. -/
def subAux (pat : List Char) : List Char → Bool
  | [] => pat.isEmpty
  | l@(_ :: rest) => pat.isPrefixOf l || subAux pat rest

/-- Whether string `pat` occurs as a substring of `hay`:
`re.search(pat, hay)` for a pattern that is a literal. -/
def containsSub (hay pat : String) : Bool :=
  subAux pat.data hay.data

/-- Whether any of the literals occurs in `hay`: `re.search` on an
alternation of literals. -/
def containsAny (hay : String) (pats : List String) : Bool :=
  pats.any (fun p => containsSub hay p)

/-- Python `str.lower()` (structurally recursive over the character
list). -/
def pyLower (s : String) : String := String.mk (s.data.map Char.toLower)

/-- Python `str.strip()`: drop leading and trailing whitespace
(structurally recursive over the character list). -/
def pyStrip (s : String) : String :=
  String.mk (((s.data.dropWhile Char.isWhitespace).reverse.dropWhile Char.isWhitespace).reverse)

/-- Python `txt.splitlines()[0]` for newline-separated text: the prefix up
to the first newline. -/
def firstLineOf (s : String) : String :=
  String.mk (s.data.takeWhile (fun c => ¬ (c = '\n')))

/-! ## analyzer.py: categorization engine -/

/-- The ordered rule table `CATEGORY_PATTERNS` of analyzer.py, with the raw
regex pattern strings. -/
def CATEGORY_PATTERNS : List (String × List String) :=
  [("Timeout", ["\\btimeout\\b", "\\btimed out\\b", "timeouterror"]),
   ("Element not found", ["elementnotfound", "element not found", "no such element", "noelement", "could not find element"]),
   ("Assertion", ["assertionerror", "\\bassert\\b", "expected .* but", "assert failed"]),
   ("Network/Connection", ["connectionerror", "failed to connect", "connection refused", "socket.timeout", "connection timed out"]),
   ("Database", ["\\bdb\\b", "\\bdatabase\\b", "sqlexception", "psycopg2", "postgres", "mysql", "sqlite"]),
   ("Auth/Authorization", ["unauthorized", "\\bauth\\b", "403", "401", "forbidden"]),
   ("Timeout/Long Running", ["long running", "\\bslow\\b", "response time", "timed out after"])]

/-- A regex matcher oracle: `m pat text` is `none` when compiling `pat`
raises `re.error` (the code catches it and skips the pattern), `some true`
when `re.search` finds a match, `some false` when it returns `None`. -/
abbrev Matcher := String → String → Option Bool

/-- The inner pattern loop of `categorize_message`: does any pattern of the
rule match (a pattern that raises is skipped)? -/
def matchesAny (m : Matcher) (text : String) : List String → Bool
  | [] => false
  | p :: ps =>
    match m (pyLower p) text with
    | some true => true
    | _ => matchesAny m text ps

/-- The outer rule loop of `categorize_message`. -/
def categorizeGo (m : Matcher) (text : String) : List (String × List String) → String
  | [] => "Other"
  | (cat, ps) :: rest => if matchesAny m text ps then cat else categorizeGo m text rest

/-- `categorize_message(msg)` of analyzer.py, parameterized by the regex
engine `m`. -/
def categorize_message (m : Matcher) (msg : String) : String :=
  categorizeGo m (pyLower msg) CATEGORY_PATTERNS

/-- A concrete matcher instance used in witnesses: a pattern matches iff it
occurs literally as a substring (what `re.search` does on literal
patterns). -/
def literalMatcher : Matcher := fun p t => some (containsSub t p)

/-! ## analyzer.py: node classifier -/

/-- The tag-name vocabulary `TEST_TAG_HINTS` (a Python set literal,
duplicates as written in the source). -/
def TEST_TAG_HINTS : List String :=
  ["testcase", "test-case", "test", "testresult", "test-step", "unittestresult", "unittestresult", "testcase"]

/-- The failure-indicating child tag vocabulary `FAILURE_CHILD_TAGS`.
Python iterates this set in an unspecified (hash-based) order; the source
literal's order is used here.  No claim below depends on this order. -/
def FAILURE_CHILD_TAGS : List String :=
  ["failure", "error", "failed", "failuremessage", "reason", "failure-message"]

/-- `is_test_tag(tag_name)`: the regex
`(test|case|result|unittest|test-case)` is an alternation of literals, so
`re.search` with it is a substring test. -/
def is_test_tag (tag_name : String) : Bool :=
  if tag_name = "" then false
  else
    let name := pyLower tag_name
    if TEST_TAG_HINTS.contains name then true
    else containsAny name ["test", "case", "result", "unittest", "test-case"]

/-- `extract_text`'s attribute loop. -/
def extractTextGo (node : Item) : List String → String
  | [] => pyStrip (textContent node)
  | a :: rest =>
    match getAttr node a with
    | some v => pyStrip v
    | none => extractTextGo node rest

/-- `extract_text(node)`: prefer a message-like attribute, else the node's
own text, stripped. -/
def extract_text (node : Item) : String :=
  extractTextGo node ["message", "reason", "text", "failureMessage", "failure-message"]

/-! ## analyzer.py: outcome extractor `get_status_and_message` -/

/-- The failing status-attribute vocabulary of rule 1. -/
def failingVals : List String := ["failed", "fail", "error", "failure", "failed_with_error"]

/-- The passing status-attribute vocabulary of rule 1. -/
def passingVals : List String := ["passed", "pass", "ok", "success"]

/-- The skipping status-attribute vocabulary of rule 1 (the source checks
only `("skipped", "ignored")`). -/
def skippingVals : List String := ["skipped", "ignored"]

/-- All status-attribute vocabulary values of rule 1 combined. -/
def allStatusVocab : List String := (failingVals ++ passingVals) ++ skippingVals

/-- Rule 1 of `get_status_and_message`: scan the attributes
`result`, `outcome`, `status` in that order; the first present attribute
whose stripped, lowercased value is in one of the three vocabularies
decides; other attributes are skipped. -/
def statusFromAttrs (node : Item) : List String → Option (String × String × String)
  | [] => none
  | a :: rest =>
    match getAttr node a with
    | none => statusFromAttrs node rest
    | some raw =>
      let val := pyLower (pyStrip raw)
      if failingVals.contains val then
        some ("FAIL", extract_text node, pyStrip (textContent node))
      else if passingVals.contains val then some ("PASS", "", "")
      else if skippingVals.contains val then some ("SKIPPED", "", "")
      else statusFromAttrs node rest

/-- Rule 2: first direct child whose lowercased tag is a failure tag. -/
def ruleDirectChild (node : Item) : Option (String × String × String) :=
  match (directElemChildren node).find? (fun c => FAILURE_CHILD_TAGS.contains (pyLower (tagOf c))) with
  | some child =>
    some ("FAIL",
          pyStrip (pyOrStrs [extract_text child, extract_text node]),
          pyStrip (pyOrStrs [textContent child, textContent node]))
  | none => none

/-- Rule 3: for each failure tag name in turn, first descendant with that
tag. -/
def ruleDescendant (node : Item) : List String → Option (String × String × String)
  | [] => none
  | t :: rest =>
    match findElems t (childrenOf node) with
    | some found =>
      some ("FAIL",
            pyStrip (pyOrStrs [extract_text found, extract_text node]),
            pyStrip (pyOrStrs [textContent found, textContent node]))
    | none => ruleDescendant node rest

/-- Rule 4: a message-like attribute on the node itself. -/
def ruleMsgAttr (node : Item) : List String → Option (String × String × String)
  | [] => none
  | a :: rest =>
    match getAttr node a with
    | some v => some ("FAIL", pyStrip v, pyStrip (textContent node))
    | none => ruleMsgAttr node rest

/-- Rule 5: free-text heuristic on the node's lowercased full text.
Python's `splitlines()[0]` is embedded as splitting at newline. -/
def ruleFreeText (node : Item) : Option (String × String × String) :=
  let txt := pyLower (textContent node)
  if containsSub txt "traceback" || containsSub txt "assertionerror" || containsSub txt "error:" then
    let firstline := if pyStrip txt ≠ "" then (firstLineOf txt) else ""
    some ("FAIL", pyStrip firstline, pyStrip txt)
  else none

/-- `get_status_and_message(node)`: the six rules in strict precedence
order, defaulting to PASS. -/
def get_status_and_message (node : Item) : String × String × String :=
  match statusFromAttrs node ["result", "outcome", "status"] with
  | some r => r
  | none =>
    match ruleDirectChild node with
    | some r => r
    | none =>
      match ruleDescendant node FAILURE_CHILD_TAGS with
      | some r => r
      | none =>
        match ruleMsgAttr node ["message", "reason", "failure"] with
        | some r => r
        | none =>
          match ruleFreeText node with
          | some r => r
          | none => ("PASS", "", "")

/-- The stripped, lowercased values of the `result`, `outcome`, `status`
attributes present on the node, in the scan order of rule 1. -/
def statusAttrVals (node : Item) : List String :=
  ((["result", "outcome", "status"].filterMap (fun a => getAttr node a)).map (fun v => pyLower (pyStrip v)))

/-! ## analyzer.py: test records and node classifier `find_test_nodes` -/

/-- The record dict produced per test node (§3 TestRecord, without the
later `category` column). -/
structure TestRecord where
  testcase : String
  classname : String
  time : String
  status : String
  message : String
  details : String
deriving DecidableEq, Repr

/-- The second candidate loop body of `find_test_nodes`: is this element
appended by the attribute-based conditions? -/
def isAttrCandidate (t : Item) : Bool :=
  let name_attr := pyOrOpt [getAttr t "name", getAttr t "testName", getAttr t "testname", getAttr t "method", getAttr t "test"]
  if name_attr.isSome &&
     (is_test_tag (tagOf t) || containsAny (pyLower (tagOf t)) ["test", "case", "result"]) then true
  else if hasAttr t "outcome" && hasAttr t "testname" then true
  else hasAttr t "result" && (hasAttr t "name" || hasAttr t "testname")

/-- Deduplication of candidates.  The Python key is
`(name, resolved name, id(c))`; since `id(c)` is unique per node object the
key collapses to node identity, embedded as the node's position in document
order. -/
def dedupIdx : List (Nat × Item) → List Nat → List (Nat × Item)
  | [], _ => []
  | p :: rest, seen =>
    if seen.contains p.1 then dedupIdx rest seen
    else p :: dedupIdx rest (p.1 :: seen)

/-- `find_test_nodes(soup)`: `soup.find_all("testcase")` followed by the
attribute-based candidates, deduplicated by node identity preserving
order. -/
def find_test_nodes (doc : Doc) : List Item :=
  let indexed := (elemsOfList doc).enum
  let cands := indexed.filter (fun p => tagOf p.2 = "testcase")
               ++ indexed.filter (fun p => isAttrCandidate p.2)
  (dedupIdx cands []).map Prod.snd

/-- `get_test_info(node)`: name/class/time resolution plus the outcome
extractor. -/
def get_test_info (node : Item) : TestRecord :=
  let name0 := pyOrD [getAttr node "name", getAttr node "testName", getAttr node "testname", getAttr node "method", getAttr node "id"] ""
  let classname := pyOrD [getAttr node "classname", getAttr node "class", getAttr node "className"] ""
  let time := pyOrD [getAttr node "time", getAttr node "duration"] ""
  let r := get_status_and_message node
  let name :=
    if name0 = "" then
      match findElems "name" (childrenOf node) with
      | some t => if pyStrip (textContent t) ≠ "" then pyStrip (textContent t) else name0
      | none => name0
    else name0
  { testcase := pyStrip name, classname := pyStrip classname, time := pyStrip time,
    status := r.1, message := pyStrip r.2.1, details := pyStrip r.2.2 }

/-! ## analyzer.py: tier 3 `infer_tests_from_repeated_siblings` -/

/-- Name resolution of tier 3: for each candidate key, a name-bearing child
with non-empty text wins, else a present attribute (even when its stripped
value is empty, matching the `break` in the source). -/
def resolveNameRS (child : Item) : List String → String
  | [] => ""
  | cand :: rest =>
    let byChild :=
      match findElems cand (childrenOf child) with
      | some t => pyStrip (textContent t)
      | none => ""
    if byChild ≠ "" then byChild
    else
      match getAttr child cand with
      | some v => pyStrip v
      | none => resolveNameRS child rest

/-- The failure keywords of tier 3's combined-text check. -/
def rsKeywords : List String := ["error", "failed", "exception", "traceback", "assertion"]

/-- Does some `result`/`outcome`/`status` attribute carry a value in
`("fail", "failed", "error")` (used by tiers 3 and 4)? -/
def rsAttrFail (node : Item) : Bool :=
  ["result", "outcome", "status"].any (fun a =>
    match getAttr node a with
    | some v => ["fail", "failed", "error"].contains (pyLower (pyStrip v))
    | none => false)

/-- Tier 3's combined text: space-join of the non-empty stripped texts of
the direct element children, else the node's own stripped text. -/
def combinedTextOf (child : Item) : String :=
  let parts := ((directElemChildren child).map (fun c => pyStrip (textContent c))).filter (fun s => s ≠ "")
  let j := String.intercalate " " parts
  if j = "" then pyStrip (textContent child) else j

/-- The record tier 3 synthesizes for one repeated sibling (0-based
enumeration index `idx`). -/
def rsRecord (child : Item) (idx : Nat) : TestRecord :=
  let nm := resolveNameRS child ["name", "id", "title", "testName", "testname"]
  let name := if nm = "" then pyOrD [getAttr child "name", getAttr child "id"] (tagOf child ++ "-" ++ toString (idx + 1)) else nm
  let combined := combinedTextOf child
  let lower := pyLower combined
  let status := if rsAttrFail child || rsKeywords.any (fun k => containsSub lower k) then "FAIL" else "PASS"
  { testcase := name, classname := tagOf child, time := "",
    status := status,
    message := if combined = "" then "" else String.mk (combined.data.take 300),
    details := if combined = "" then "" else combined }

/-- The enumeration loop of tier 3: one record per child whose tag is in
the repeated set; `idx` counts all children (Python `enumerate`). -/
def rsLoop (repeated : List String) : Nat → List Item → List TestRecord
  | _, [] => []
  | idx, c :: rest =>
    if repeated.contains (tagOf c) then rsRecord c idx :: rsLoop repeated (idx + 1) rest
    else rsLoop repeated (idx + 1) rest

/-- `infer_tests_from_repeated_siblings(soup)`. -/
def infer_tests_from_repeated_siblings (doc : Doc) : List TestRecord :=
  match docFirstElem doc with
  | none => []
  | some root =>
    let child_tags := directElemChildren root
    if child_tags.isEmpty then []
    else
      let names := child_tags.map tagOf
      let rep := names.filter (fun t => 2 ≤ names.count t)
      let repeated := if ¬ rep.isEmpty then rep else if 2 ≤ child_tags.length then names else []
      if repeated.isEmpty then []
      else rsLoop repeated 0 child_tags

/-! ## analyzer.py: tier 4 `infer_tests_more_aggressive` -/

/-- Name resolution of tier 4's `node_to_test`: a present attribute with
non-empty stripped value wins, else a name-bearing child with non-empty
text (note the order differs from tier 3). -/
def resolveNameAg (node : Item) : List String → String
  | [] => ""
  | cand :: rest =>
    let byAttr :=
      match getAttr node cand with
      | some v => pyStrip v
      | none => ""
    if byAttr ≠ "" then byAttr
    else
      let byChild :=
        match findElems cand (childrenOf node) with
        | some t => pyStrip (textContent t)
        | none => ""
      if byChild ≠ "" then byChild else resolveNameAg node rest

/-- The failure keywords of tier 4 (tier 3's plus `fault`). -/
def agKeywords : List String := ["error", "failed", "exception", "traceback", "assertion", "fault"]

/-- Tier 4's combined text (the join is additionally stripped). -/
def combinedTextAg (node : Item) : String :=
  let parts := ((directElemChildren node).map (fun c => pyStrip (textContent c))).filter (fun s => s ≠ "")
  let j := pyStrip (String.intercalate " " parts)
  if j = "" then pyStrip (textContent node) else j

/-- `node_to_test(node, idx)` of `infer_tests_more_aggressive`. -/
def node_to_test (node : Item) (idx : Nat) : TestRecord :=
  let nm := resolveNameAg node ["name", "id", "title", "testName", "testname"]
  let name := if nm = "" then pyOrD [getAttr node "name", getAttr node "id"] (tagOf node ++ "-" ++ toString (idx + 1)) else nm
  let combined := combinedTextAg node
  let lower := pyLower combined
  let status := if rsAttrFail node || agKeywords.any (fun k => containsSub lower k) then "FAIL" else "PASS"
  { testcase := name, classname := tagOf node,
    time := pyOrD [getAttr node "time", getAttr node "duration"] "",
    status := status,
    message := if combined = "" then "" else String.mk (combined.data.take 300),
    details := if combined = "" then "" else combined }

/-- Attempt 1 of tier 4: repeated siblings, with the source's
(incremented-before-use) index. -/
def agLoop1 (repeated : List String) : Nat → List Item → List TestRecord
  | _, [] => []
  | idx, c :: rest =>
    if repeated.contains (tagOf c) then node_to_test c (idx + 1) :: agLoop1 repeated (idx + 1) rest
    else agLoop1 repeated idx rest

/-- `infer_tests_more_aggressive(soup)`: repeated siblings, else all direct
children of root (if at least 2), else grandchildren, else all elements
capped at the first 100. -/
def infer_tests_more_aggressive (doc : Doc) : List TestRecord :=
  match docFirstElem doc with
  | none => []
  | some root =>
    let child_tags := directElemChildren root
    let names := child_tags.map tagOf
    let repeated := names.filter (fun t => 2 ≤ names.count t)
    let r1 := if ¬ repeated.isEmpty then agLoop1 repeated 0 child_tags else []
    if ¬ r1.isEmpty then r1
    else
      let r2 := if 2 ≤ child_tags.length then (child_tags.enum).map (fun p => node_to_test p.2 p.1) else []
      if ¬ r2.isEmpty then r2
      else
        let gcs := child_tags.flatMap directElemChildren
        let r3 := if ¬ gcs.isEmpty then (gcs.enum).map (fun p => node_to_test p.2 p.1) else []
        if ¬ r3.isEmpty then r3
        else ((elemsOfList doc).take 100).enum.map (fun p => node_to_test p.2 p.1)

/-! ## analyzer.py: fallback cascade controller `parse_xml_report` -/

/-- Tier 2 of `parse_xml_report`: the immediate test-tag-like children of
the first `testsuite` element. -/
def tier2Records (doc : Doc) : List TestRecord :=
  match findElems "testsuite" doc with
  | none => []
  | some ts => ((directElemChildren ts).filter (fun c => is_test_tag (tagOf c))).map get_test_info

/-- `parse_xml_report` after parsing (the file read and BeautifulSoup call
are external): the four tiers in order, first non-empty wins. -/
def parse_xml_report (doc : Doc) : List TestRecord :=
  let nodes := find_test_nodes doc
  if ¬ nodes.isEmpty then nodes.map get_test_info
  else
    let t2 := tier2Records doc
    if ¬ t2.isEmpty then t2
    else
      let inferred := infer_tests_from_repeated_siblings doc
      if ¬ inferred.isEmpty then inferred
      else infer_tests_more_aggressive doc

/-! ## Streamlit_app.py: comparison engine -/

/-- The status normalization of `df_from_results`: lowercase, then the
`replace` dictionary (unmatched values are kept as the lowercased
string). -/
def status_norm (s : String) : String :=
  let t := pyLower s
  if t = "passed" ∨ t = "pass" ∨ t = "ok" then "pass"
  else if t = "failed" ∨ t = "fail" ∨ t = "error" then "fail"
  else if t = "skipped" ∨ t = "skip" then "skipped"
  else t

/-- The merge key `testkey = testcase || "||" || classname`. -/
def testkey (r : TestRecord) : String :=
  r.testcase ++ "||" ++ r.classname

/-- The full outer join of `pd.merge(df_a, df_b, on="testkey",
how="outer")`: every A-row paired with every matching B-row (or with
nothing), followed by the unmatched B-rows.  The claims below are
insensitive to row order. -/
def outerMerge (A B : List TestRecord) : List (Option TestRecord × Option TestRecord) :=
  (A.map (fun a =>
    let ms := B.filter (fun b => testkey b = testkey a)
    if ms.isEmpty then [((some a : Option TestRecord), (none : Option TestRecord))]
    else ms.map (fun b => (some a, some b)))).flatten
  ++ (B.filter (fun b => ¬ A.any (fun a => testkey a = testkey b))).map (fun b => ((none : Option TestRecord), some b))

/-- `change_type(row)` of Streamlit_app.py. -/
def change_type (a b : String) : String :=
  if a ≠ "fail" ∧ b = "fail" then "New Failure"
  else if a = "fail" ∧ b ≠ "fail" then "Fixed"
  else if a = "fail" ∧ b = "fail" then "Persistent Failure"
  else if a = "pass" ∧ b = "pass" then "Still Passing"
  else "Other/Changed"

/-- One row of the comparison output (§3 ComparisonResult): the two merged
records (absence on one side after the outer join), the normalized statuses
with missing sides filled with `"unknown"`, and the derived change
label. -/
structure CompRow where
  recA : Option TestRecord
  recB : Option TestRecord
  status_a : String
  status_b : String
  change : String
deriving DecidableEq, Repr

/-- A placeholder row used only to state concrete indexing facts. -/
def dRow : CompRow :=
  { recA := none, recB := none, status_a := "", status_b := "", change := "" }

/-- The comparison pipeline of the app's second tab: normalize both runs
(`df_from_results`), outer-join on `testkey`, fill missing statuses with
`"unknown"`, and label each pair with `change_type`.  (The `category`
column also computed by `df_from_results` plays no role in the
comparison.) -/
def compareRuns (A B : List TestRecord) : List CompRow :=
  (outerMerge A B).map (fun p =>
    let a := match p.1 with | some r => status_norm r.status | none => "unknown"
    let b := match p.2 with | some r => status_norm r.status | none => "unknown"
    { recA := p.1, recB := p.2, status_a := a, status_b := b, change := change_type a b })

/-! ## Concrete documents, nodes and record sets used in witnesses and
counterexamples -/

/-- A node whose `result` attribute is passing but whose `outcome`
attribute is failing, with a direct `failure` child. -/
def cx2node : Item := .elem "t" [("result", "pass"), ("outcome", "failed")] [.elem "failure" [] [.text "boom"]]

/-- A node with a failing `result` attribute and a passing-looking child
tag. -/
def w2node : Item := .elem "t" [("result", "failed")] [.elem "passed" [] []]

/-- A node whose `result` attribute is `"skip"`. -/
def cx3node : Item := .elem "t" [("result", "skip")] []

/-- A node whose `result` attribute is `"skipped"`. -/
def w3node : Item := .elem "t" [("result", "skipped")] []

/-- A document with two repeated `it` siblings under the root and no
recognizable test tags. -/
def dW1 : Doc := [.elem "root" [] [.elem "it" [] [], .elem "it" [] []]]

/-- Baseline run A of the spec's comparison scenario. -/
def cA4 : List TestRecord := [⟨"t1", "c", "", "PASS", "", ""⟩]

/-- Current run B of the spec's comparison scenario. -/
def cB4 : List TestRecord := [⟨"t1", "c", "", "FAIL", "", ""⟩, ⟨"t2", "c", "", "FAIL", "", ""⟩]

/-- A record set containing a SKIPPED record. -/
def R5cx : List TestRecord := [⟨"t", "c", "", "SKIPPED", "", ""⟩]

/-- A duplicate-free record set with one PASS and one FAIL record. -/
def RwC5 : List TestRecord := [⟨"t1", "c", "", "PASS", "", ""⟩, ⟨"t2", "c", "", "FAIL", "", ""⟩]

/-- A document whose single root child has 201 element grandchildren. -/
def cxDoc6 : Doc := [.elem "r" [] [.elem "c" [] (List.replicate 201 (.elem "g" [] []))]]

/-- A document with a single childless element. -/
def dW6 : Doc := [.elem "solo" [] []]

/-- Another single-element document, for the truncation witness. -/
def dW10 : Doc := [.elem "r" [] []]

/-- The record tier 4 synthesizes for `dW10`'s lone element. -/
def wRec10 : TestRecord := ⟨"r-1", "r", "", "PASS", "", ""⟩

/-! ## Helper lemmas -/

theorem contains_append_eq (l₁ l₂ : List String) (a : String) :
    (l₁ ++ l₂).contains a = (l₁.contains a || l₂.contains a) := by
  induction l₁ with
  | nil => rfl
  | cons x xs ih => simp [List.contains_cons, ih, Bool.or_assoc]

/-- Rule 1 of the outcome extractor selects by the first scanned status
attribute whose value lies in one of the three vocabularies. -/
theorem statusFromAttrs_eq_find (node : Item) (attrs : List String) :
    statusFromAttrs node attrs =
      match ((attrs.filterMap (fun a => getAttr node a)).map (fun v => pyLower (pyStrip v))).find?
              (fun s => allStatusVocab.contains s) with
      | some v =>
          if failingVals.contains v then some ("FAIL", extract_text node, pyStrip (textContent node))
          else if passingVals.contains v then some ("PASS", "", "")
          else some ("SKIPPED", "", "")
      | none => none := by
  induction attrs with
  | nil => rfl
  | cons a rest ih =>
    cases h : getAttr node a with
    | none =>
      rw [statusFromAttrs]
      simp only [h, List.filterMap_cons_none h]
      exact ih
    | some raw =>
      rw [statusFromAttrs]
      simp only [h, List.filterMap_cons_some h, List.map_cons]
      by_cases hf : failingVals.contains (pyLower (pyStrip raw)) = true
      · have hall : allStatusVocab.contains (pyLower (pyStrip raw)) = true := by
          have hm : pyLower (pyStrip raw) ∈ failingVals := by simpa using hf
          simp [allStatusVocab, contains_append_eq, hm]
        rw [List.find?_cons_of_pos _ hall]
        simp only [hf, eq_self_iff_true, if_true]
      · by_cases hp : passingVals.contains (pyLower (pyStrip raw)) = true
        · have hall : allStatusVocab.contains (pyLower (pyStrip raw)) = true := by
            have hm : pyLower (pyStrip raw) ∈ passingVals := by simpa using hp
            simp [allStatusVocab, contains_append_eq, hm]
          rw [Bool.not_eq_true] at hf
          rw [List.find?_cons_of_pos _ hall]
          simp only [hf, hp, eq_self_iff_true, if_true, Bool.false_eq_true, if_false]
        · by_cases hsk : skippingVals.contains (pyLower (pyStrip raw)) = true
          · have hall : allStatusVocab.contains (pyLower (pyStrip raw)) = true := by
              have hm : pyLower (pyStrip raw) ∈ skippingVals := by simpa using hsk
              simp [allStatusVocab, contains_append_eq, hm]
            rw [Bool.not_eq_true] at hf hp
            rw [List.find?_cons_of_pos _ hall]
            simp only [hf, hp, hsk, eq_self_iff_true, if_true, Bool.false_eq_true, if_false]
          · have hall : ¬ (allStatusVocab.contains (pyLower (pyStrip raw)) = true) := by
              simp only [allStatusVocab, contains_append_eq, Bool.or_eq_true]
              intro hor
              rcases hor with hor | hor
              · rcases hor with hor | hor
                · exact hf hor
                · exact hp hor
              · exact hsk hor
            rw [Bool.not_eq_true] at hf hp hsk
            rw [List.find?_cons_of_neg _ hall]
            simp only [hf, hp, hsk, Bool.false_eq_true, if_false]
            exact ih

/-! ## Claims C2 and C3: rule 1 of the outcome extractor -/

/-- C2 (counterexample): the claim "every node carrying a status attribute
with a failing value yields FAIL" is false as stated: `cx2node` carries
`outcome="failed"` (a failing-vocabulary value) and a direct `failure`
child, yet `get_status_and_message` returns PASS, because the `result`
attribute is scanned first and its value `"pass"` decides. -/
theorem c2_attr_precedence_counterexample :
    getAttr cx2node "outcome" = some "failed" ∧
    failingVals.contains "failed" = true ∧
    tagOf ((directElemChildren cx2node).getD 0 (Item.text "")) = "failure" ∧
    get_status_and_message cx2node = ("PASS", "", "") := by
  refine ⟨rfl, rfl, rfl, rfl⟩

/-- C2 (amended): for every node whose first scanned status attribute
(`result`, then `outcome`, then `status`) carrying a value of one of the
three status vocabularies has a failing value, the extractor returns FAIL
with best-effort message and the node's stripped text as details — whatever
children the node has, so rule 1 strictly outranks rule 2. -/
theorem c2_rule1_failing_amended (node : Item) (v : String)
    (h1 : (statusAttrVals node).find? (fun s => allStatusVocab.contains s) = some v)
    (h2 : failingVals.contains v = true) :
    get_status_and_message node = ("FAIL", extract_text node, pyStrip (textContent node)) := by
  have hs : statusFromAttrs node ["result", "outcome", "status"] =
      some ("FAIL", extract_text node, pyStrip (textContent node)) := by
    rw [statusFromAttrs_eq_find]
    unfold statusAttrVals at h1
    rw [h1]
    simp only [h2, eq_self_iff_true, if_true]
  rw [get_status_and_message, hs]

/-- C2 (witness): `w2node` has `result="failed"` and a passing-looking
child tag, and the amended theorem applies. -/
theorem c2_rule1_failing_amended_witness :
    get_status_and_message w2node = ("FAIL", extract_text w2node, pyStrip (textContent w2node)) :=
  c2_rule1_failing_amended w2node "failed" (by decide) (by decide)

/-- C3 (counterexample): the claim is false for the value `"skip"`: the
source checks only `("skipped", "ignored")`, so `cx3node` with
`result="skip"` falls through all rules and comes back PASS, not
SKIPPED. -/
theorem c3_skip_counterexample :
    getAttr cx3node "result" = some "skip" ∧
    get_status_and_message cx3node = ("PASS", "", "") ∧
    (get_status_and_message cx3node).1 ≠ "SKIPPED" := by
  refine ⟨rfl, rfl, by decide⟩

/-- C3 (amended): for every node whose first scanned status attribute
(`result`, `outcome`, `status` order) carrying a vocabulary value has the
lowercased value `skipped` or `ignored`, the extractor returns SKIPPED with
empty message and empty details. -/
theorem c3_skipped_amended (node : Item) (v : String)
    (h1 : (statusAttrVals node).find? (fun s => allStatusVocab.contains s) = some v)
    (h2 : skippingVals.contains v = true) :
    get_status_and_message node = ("SKIPPED", "", "") := by
  have hv : v ∈ skippingVals := by simpa using h2
  have hf : failingVals.contains v = false := by
    fin_cases hv <;> decide
  have hp : passingVals.contains v = false := by
    have hv2 : v ∈ skippingVals := by simpa using h2
    fin_cases hv2 <;> decide
  have hs : statusFromAttrs node ["result", "outcome", "status"] = some ("SKIPPED", "", "") := by
    rw [statusFromAttrs_eq_find]
    unfold statusAttrVals at h1
    rw [h1]
    simp only [hf, hp, h2, eq_self_iff_true, if_true, Bool.false_eq_true, if_false]
  rw [get_status_and_message, hs]

/-- C3 (witness): `w3node` with `result="skipped"` is extracted as
SKIPPED. -/
theorem c3_skipped_amended_witness :
    get_status_and_message w3node = ("SKIPPED", "", "") :=
  c3_skipped_amended w3node "skipped" (by decide) (by decide)

/-! ## Claims C7 and C8: the categorization engine -/

/-- The rule loop returns the label of the first rule with a matching
pattern when no earlier rule matches. -/
theorem categorizeGo_first (m : Matcher) (text : String) (T : List (String × List String))
    (i : Nat) (hi : i < T.length)
    (hmatch : matchesAny m text (T.getD i ("", [])).2 = true)
    (hbefore : ∀ k, k < i → matchesAny m text (T.getD k ("", [])).2 = false) :
    categorizeGo m text T = (T.getD i ("", [])).1 := by
  induction T generalizing i with
  | nil => exact absurd hi (Nat.not_lt_zero i)
  | cons hd tl ih =>
    obtain ⟨cat, ps⟩ := hd
    cases i with
    | zero =>
      simp only [List.getD_cons_zero] at hmatch ⊢
      simp only [categorizeGo, hmatch, if_true]
    | succ k =>
      have h0 : matchesAny m text ps = false := by
        have := hbefore 0 (Nat.succ_pos k)
        simpa using this
      simp only [categorizeGo, h0, Bool.false_eq_true, if_false]
      simp only [List.getD_cons_succ] at hmatch ⊢
      exact ih k (Nat.lt_of_succ_lt_succ hi) hmatch
        (fun j hj => by
          have := hbefore (j + 1) (Nat.succ_lt_succ hj)
          simpa using this)

/-- C7 (claim): `categorize` is order-sensitive: when the patterns of two
different rules of `CATEGORY_PATTERNS` both match (rule `i` before rule
`j`, and no rule before `i` matches), the result is the label of the
earlier rule `i` and is never the label of the later rule `j`, regardless
of which pattern is more specific. -/
theorem c7_categorize_order_sensitive (m : Matcher) (msg : String) (i j : Nat)
    (hij : i < j) (hj : j < CATEGORY_PATTERNS.length)
    (hi_match : matchesAny m (pyLower msg) (CATEGORY_PATTERNS.getD i ("", [])).2 = true)
    (hj_match : matchesAny m (pyLower msg) (CATEGORY_PATTERNS.getD j ("", [])).2 = true)
    (hfirst : ∀ k, k < i → matchesAny m (pyLower msg) (CATEGORY_PATTERNS.getD k ("", [])).2 = false) :
    categorize_message m msg = (CATEGORY_PATTERNS.getD i ("", [])).1 ∧
    categorize_message m msg ≠ (CATEGORY_PATTERNS.getD j ("", [])).1 := by
  have hi : i < CATEGORY_PATTERNS.length := Nat.lt_trans hij hj
  have heq := categorizeGo_first m (pyLower msg) CATEGORY_PATTERNS i hi hi_match hfirst
  have hlen : CATEGORY_PATTERNS.length = 7 := rfl
  have hdist : ∀ b, b < 7 → ∀ a, a < b →
      (CATEGORY_PATTERNS.getD a ("", [])).1 ≠ (CATEGORY_PATTERNS.getD b ("", [])).1 := by decide
  refine ⟨heq, ?_⟩
  show categorizeGo m (pyLower msg) CATEGORY_PATTERNS ≠ (CATEGORY_PATTERNS.getD j ("", [])).1
  rw [heq]
  exact hdist j (hlen ▸ hj) i hij

/-- C7 (witness): with a literal-substring matcher, the text
`"timeouterror element not found"` matches rule 0 (`Timeout`) and rule 1
(`Element not found`); the earlier rule wins. -/
theorem c7_categorize_order_sensitive_witness :
    categorize_message literalMatcher "timeouterror element not found" =
      (CATEGORY_PATTERNS.getD 0 ("", [])).1 ∧
    categorize_message literalMatcher "timeouterror element not found" ≠
      (CATEGORY_PATTERNS.getD 1 ("", [])).1 :=
  c7_categorize_order_sensitive literalMatcher "timeouterror element not found" 0 1
    (by decide) (by decide) (by decide) (by decide)
    (fun k hk => absurd hk (Nat.not_lt_zero k))

/-- Replacing the matcher by one that turns exceptions into non-matches
does not change the inner loop: a malformed pattern is skipped. -/
theorem matchesAny_totalize (m : Matcher) (text : String) (ps : List String) :
    matchesAny (fun p t => some (m p t == some true)) text ps = matchesAny m text ps := by
  induction ps with
  | nil => rfl
  | cons p rest ih =>
    simp only [matchesAny]
    cases h : m (pyLower p) text with
    | none => simp [h, ih]
    | some b => cases b <;> simp [h, ih]

/-- The rule loop always yields `"Other"` or one of the table's labels. -/
theorem categorizeGo_mem (m : Matcher) (text : String) (T : List (String × List String)) :
    categorizeGo m text T = "Other" ∨ (T.map Prod.fst).contains (categorizeGo m text T) = true := by
  induction T with
  | nil => exact Or.inl rfl
  | cons hd tl ih =>
    obtain ⟨cat, ps⟩ := hd
    by_cases h : matchesAny m text ps = true
    · right
      simp [categorizeGo, h, List.contains_cons]
    · have hf : matchesAny m text ps = false := by simpa using h
      rcases ih with h1 | h2
      · left
        simp [categorizeGo, hf, h1]
      · right
        simp only [categorizeGo, hf, Bool.false_eq_true, if_false, List.map_cons,
          List.contains_cons, h2, Bool.or_true]

/-- If no rule matches, the rule loop returns `"Other"`. -/
theorem categorizeGo_nomatch (m : Matcher) (text : String) (T : List (String × List String))
    (h : ∀ r ∈ T, matchesAny m text r.2 = false) :
    categorizeGo m text T = "Other" := by
  induction T with
  | nil => rfl
  | cons hd tl ih =>
    obtain ⟨cat, ps⟩ := hd
    have h0 : matchesAny m text ps = false := h (cat, ps) (List.mem_cons_self (cat, ps) tl)
    simp only [categorizeGo, h0, Bool.false_eq_true, if_false]
    exact ih (fun r hr => h r (List.mem_cons_of_mem _ hr))

/-- C8 (claim): `categorize` is total: for every matcher behaviour
(including exception-raising patterns) and every input text it returns a
label — `"Other"` or one of the table's labels; a matcher whose exceptions
are turned into non-matches gives the same result (malformed patterns are
skipped, not propagated); and when no rule matches the result is
`"Other"`. -/
theorem c8_categorize_total (m : Matcher) (msg : String) :
    (categorize_message m msg = "Other" ∨
      (CATEGORY_PATTERNS.map Prod.fst).contains (categorize_message m msg) = true) ∧
    categorize_message m msg = categorize_message (fun p t => some (m p t == some true)) msg ∧
    ((∀ r ∈ CATEGORY_PATTERNS, matchesAny m (pyLower msg) r.2 = false) →
      categorize_message m msg = "Other") := by
  refine ⟨categorizeGo_mem m (pyLower msg) CATEGORY_PATTERNS, ?_, ?_⟩
  · rw [categorize_message, categorize_message]
    induction CATEGORY_PATTERNS with
    | nil => rfl
    | cons hd tl ih =>
      obtain ⟨cat, ps⟩ := hd
      simp only [categorizeGo, matchesAny_totalize m (pyLower msg) ps, ih]
  · exact categorizeGo_nomatch m (pyLower msg) CATEGORY_PATTERNS

/-- C8 (witness): with every pattern malformed, categorization returns
`"Other"` on the empty string. -/
theorem c8_categorize_total_witness :
    categorize_message (fun _ _ => none) "" = "Other" :=
  (c8_categorize_total (fun _ _ => none) "").2.2 (by decide)

/-! ## Claims C4 and C5: the comparison engine -/

/-- C4 (counterexample): in the spec's concrete scenario the code labels
the `t2` pair (absent from A, hence A-side `"unknown"`) "New Failure", not
"Other/Changed": `change_type` returns "New Failure" for every
`statusA ≠ "fail"`, including `"unknown"`. -/
theorem c4_compare_scenario_counterexample :
    (compareRuns cA4 cB4).map CompRow.change = ["New Failure", "New Failure"] ∧
    ((compareRuns cA4 cB4).getD 1 dRow).recA = none ∧
    ((compareRuns cA4 cB4).getD 1 dRow).change ≠ "Other/Changed" := by
  refine ⟨rfl, rfl, by decide⟩

/-- C4 (amended): `compare(A, B)` on the scenario yields exactly two
results; the `t1` pair is labeled "New Failure", and the `t2` pair (absent
from A, A-side status `"unknown"`) is also labeled "New Failure". -/
theorem c4_compare_scenario_amended :
    (compareRuns cA4 cB4).length = 2 ∧
    ((compareRuns cA4 cB4).getD 0 dRow).recA = some ⟨"t1", "c", "", "PASS", "", ""⟩ ∧
    ((compareRuns cA4 cB4).getD 0 dRow).status_a = "pass" ∧
    ((compareRuns cA4 cB4).getD 0 dRow).change = "New Failure" ∧
    ((compareRuns cA4 cB4).getD 1 dRow).recA = none ∧
    ((compareRuns cA4 cB4).getD 1 dRow).recB = some ⟨"t2", "c", "", "FAIL", "", ""⟩ ∧
    ((compareRuns cA4 cB4).getD 1 dRow).status_a = "unknown" ∧
    ((compareRuns cA4 cB4).getD 1 dRow).change = "New Failure" := by
  refine ⟨rfl, rfl, rfl, rfl, rfl, rfl, rfl, rfl⟩

/-- With pairwise distinct keys, filtering a run for one of its records'
keys selects exactly that record. -/
theorem filter_key_self (R : List TestRecord) (hk : (R.map testkey).Nodup)
    (a : TestRecord) (ha : a ∈ R) :
    R.filter (fun b => testkey b = testkey a) = [a] := by
  induction R with
  | nil => cases ha
  | cons x xs ih =>
    rw [List.map_cons, List.nodup_cons] at hk
    obtain ⟨hnot, hnd⟩ := hk
    rcases List.mem_cons.mp ha with rfl | hmem
    · have hx : (fun b => decide (testkey b = testkey a)) a = true := by simp
      rw [@List.filter_cons_of_pos _ (fun b => decide (testkey b = testkey a)) a xs hx]
      have hrest : xs.filter (fun b => decide (testkey b = testkey a)) = [] := by
        rw [List.filter_eq_nil_iff]
        intro b hb hbeq
        have hkey : testkey b = testkey a := of_decide_eq_true hbeq
        exact hnot (hkey ▸ List.mem_map_of_mem testkey hb)
      rw [hrest]
    · have hx : (fun b => decide (testkey b = testkey a)) x = false := by
        simp only [decide_eq_false_iff_not]
        intro hxa
        exact hnot (hxa ▸ List.mem_map_of_mem testkey hmem)
      rw [@List.filter_cons_of_neg _ (fun b => decide (testkey b = testkey a)) x xs (by simp [hx])]
      exact ih hnd hmem

/-- Flattening a list of singletons is a map. -/
theorem flatten_map_singleton {α β : Type} (l : List α) (g : α → β) :
    (l.map (fun a => [g a])).flatten = l.map g := by
  induction l with
  | nil => rfl
  | cons x xs ih => simp [ih]

/-- With pairwise distinct keys, the outer self-join pairs every record
with itself and nothing else. -/
theorem outerMerge_self (R : List TestRecord) (hk : (R.map testkey).Nodup) :
    outerMerge R R = R.map (fun a => (some a, some a)) := by
  rw [outerMerge]
  have h2 : R.filter (fun b => ¬ R.any (fun a => testkey a = testkey b)) = [] := by
    rw [List.filter_eq_nil_iff]
    intro b hb h
    have hne := of_decide_eq_true h
    exact hne (List.any_eq_true.mpr ⟨b, hb, by simp⟩)
  rw [h2, List.map_nil, List.append_nil]
  have h1 : ∀ a ∈ R,
      (let ms := R.filter (fun b => testkey b = testkey a)
       if ms.isEmpty then [((some a : Option TestRecord), (none : Option TestRecord))]
       else ms.map (fun b => (some a, some b))) = [(some a, some a)] := by
    intro a ha
    rw [show (let ms := R.filter (fun b => testkey b = testkey a)
       if ms.isEmpty then [((some a : Option TestRecord), (none : Option TestRecord))]
       else ms.map (fun b => (some a, some b))) =
       (if (R.filter (fun b => testkey b = testkey a)).isEmpty
        then [((some a : Option TestRecord), (none : Option TestRecord))]
        else (R.filter (fun b => testkey b = testkey a)).map (fun b => (some a, some b))) from rfl]
    rw [filter_key_self R hk a ha]
    rfl
  rw [List.map_congr_left h1]
  exact flatten_map_singleton R (fun a => (some a, some a))

/-- C5 (amended): for a record set with statuses among PASS and FAIL and
pairwise distinct composite keys, `compare(R, R)` carries only the labels
"Still Passing" (for PASS records) and "Persistent Failure" (for FAIL
records). -/
theorem c5_compare_idem_amended (R : List TestRecord)
    (hs : ∀ r ∈ R, r.status = "PASS" ∨ r.status = "FAIL")
    (hk : (R.map testkey).Nodup) :
    ∀ row ∈ compareRuns R R,
      (row.change = "Still Passing" ∧ row.status_a = "pass" ∧ row.status_b = "pass") ∨
      (row.change = "Persistent Failure" ∧ row.status_a = "fail" ∧ row.status_b = "fail") := by
  intro row hrow
  rw [compareRuns, outerMerge_self R hk, List.map_map] at hrow
  obtain ⟨a, ha, hrfl⟩ := List.mem_map.mp hrow
  rcases hs a ha with hp | hp
  · left
    rw [← hrfl]
    simp only [Function.comp]
    rw [hp]
    exact ⟨rfl, rfl, rfl⟩
  · right
    rw [← hrfl]
    simp only [Function.comp]
    rw [hp]
    exact ⟨rfl, rfl, rfl⟩

/-- C5 (counterexample): the claim fails for a record set containing a
SKIPPED record: comparing the set with itself labels that record
"Other/Changed". -/
theorem c5_compare_idem_counterexample :
    (compareRuns R5cx R5cx).map CompRow.change = ["Other/Changed"] := rfl

/-- C5 (witness): a duplicate-free PASS/FAIL record set compared with
itself; the first row is "Still Passing". -/
theorem c5_compare_idem_amended_witness :
    ((((compareRuns RwC5 RwC5).getD 0 dRow).change = "Still Passing" ∧
      ((compareRuns RwC5 RwC5).getD 0 dRow).status_a = "pass" ∧
      ((compareRuns RwC5 RwC5).getD 0 dRow).status_b = "pass") ∨
     (((compareRuns RwC5 RwC5).getD 0 dRow).change = "Persistent Failure" ∧
      ((compareRuns RwC5 RwC5).getD 0 dRow).status_a = "fail" ∧
      ((compareRuns RwC5 RwC5).getD 0 dRow).status_b = "fail")) :=
  c5_compare_idem_amended RwC5 (by decide) (by decide) _ (by decide)

/-! ## Claim C1: tier 3 wins on repeated siblings -/

/-- The tier-3 loop yields exactly one record per child whose tag is in
the repeated set. -/
theorem rsLoop_length (repeated : List String) (idx : Nat) (cs : List Item) :
    (rsLoop repeated idx cs).length =
      (cs.filter (fun c => repeated.contains (tagOf c))).length := by
  induction cs generalizing idx with
  | nil => rfl
  | cons c rest ih =>
    simp only [rsLoop, List.filter_cons]
    by_cases h : repeated.contains (tagOf c) = true
    · simp only [h, eq_self_iff_true, if_true, List.length_cons, ih]
    · have h0 : repeated.contains (tagOf c) = false := by simpa using h
      simp only [h0, Bool.false_eq_true, if_false, ih]

/-- C1 (claim): when the classifier finds no candidates, the testsuite
tier finds nothing, and at least two immediate children of the root share
a tag name, `parse_xml_report` returns exactly the tier-3 result (so
tier 4 is never consulted), the result is non-empty, and it has exactly
one record per repeated sibling. -/
theorem c1_tier3_repeated_siblings (doc : Doc)
    (h1 : find_test_nodes doc = [])
    (h2 : tier2Records doc = [])
    (h3 : ∃ t, 2 ≤ ((rootChildren doc).map tagOf).count t) :
    parse_xml_report doc = infer_tests_from_repeated_siblings doc ∧
    infer_tests_from_repeated_siblings doc ≠ [] ∧
    (infer_tests_from_repeated_siblings doc).length =
      ((rootChildren doc).filter
        (fun c => 2 ≤ ((rootChildren doc).map tagOf).count (tagOf c))).length := by
  obtain ⟨t, ht⟩ := h3
  cases hroot : docFirstElem doc with
  | none =>
    exfalso
    rw [rootChildren, hroot] at ht
    simp at ht
  | some root =>
    have hrc : rootChildren doc = directElemChildren root := by
      rw [rootChildren, hroot]
    rw [hrc] at ht ⊢
    have htmem : t ∈ (directElemChildren root).map tagOf :=
      List.count_pos_iff.mp (Nat.lt_of_lt_of_le (by decide) ht)
    have hcsne : directElemChildren root ≠ [] := by
      intro habs
      rw [habs] at htmem
      simp at htmem
    have hrepmem : t ∈ ((directElemChildren root).map tagOf).filter
        (fun u => 2 ≤ ((directElemChildren root).map tagOf).count u) :=
      List.mem_filter.mpr ⟨htmem, by simpa using ht⟩
    have hrepne : ((directElemChildren root).map tagOf).filter
        (fun u => 2 ≤ ((directElemChildren root).map tagOf).count u) ≠ [] :=
      List.ne_nil_of_mem hrepmem
    have htier3 : infer_tests_from_repeated_siblings doc =
        rsLoop (((directElemChildren root).map tagOf).filter
            (fun u => 2 ≤ ((directElemChildren root).map tagOf).count u)) 0
          (directElemChildren root) := by
      rw [infer_tests_from_repeated_siblings, hroot]
      simp only [List.isEmpty_eq_false.mpr hcsne, List.isEmpty_eq_false.mpr hrepne,
        Bool.false_eq_true, not_false_iff, if_true, if_false]
    have hlen : (infer_tests_from_repeated_siblings doc).length =
        ((directElemChildren root).filter
          (fun c => 2 ≤ ((directElemChildren root).map tagOf).count (tagOf c))).length := by
      rw [htier3, rsLoop_length]
      congr 1
      apply List.filter_congr
      intro c hc
      have hmem : tagOf c ∈ (directElemChildren root).map tagOf := List.mem_map_of_mem tagOf hc
      have hCon : (((directElemChildren root).map tagOf).filter
            (fun u => 2 ≤ ((directElemChildren root).map tagOf).count u)).contains (tagOf c) =
          decide (tagOf c ∈ ((directElemChildren root).map tagOf).filter
            (fun u => 2 ≤ ((directElemChildren root).map tagOf).count u)) := by
        simp [List.contains]
      rw [hCon, decide_eq_decide]
      constructor
      · intro hin
        exact of_decide_eq_true (List.mem_filter.mp hin).2
      · intro hcnt
        exact List.mem_filter.mpr ⟨hmem, decide_eq_true hcnt⟩
    have hne3 : infer_tests_from_repeated_siblings doc ≠ [] := by
      intro habs
      have hzero : (infer_tests_from_repeated_siblings doc).length = 0 := by rw [habs]; rfl
      rw [hlen, List.length_eq_zero] at hzero
      obtain ⟨c0, hc0, hc0t⟩ := List.mem_map.mp htmem
      have hc0f : c0 ∈ (directElemChildren root).filter
          (fun c => 2 ≤ ((directElemChildren root).map tagOf).count (tagOf c)) :=
        List.mem_filter.mpr ⟨hc0, by rw [hc0t]; exact decide_eq_true ht⟩
      rw [hzero] at hc0f
      cases hc0f
    have hp : parse_xml_report doc = infer_tests_from_repeated_siblings doc := by
      rw [parse_xml_report]
      simp only [h1, h2, List.isEmpty_nil, eq_self_iff_true, not_true, if_false,
        List.isEmpty_eq_false.mpr hne3, Bool.false_eq_true, not_false_iff, if_true]
    exact ⟨hp, hne3, hlen⟩

/-- C1 (witness): a document whose root has two `it` children and nothing
recognizable by the earlier tiers. -/
theorem c1_tier3_repeated_siblings_witness :
    parse_xml_report dW1 = infer_tests_from_repeated_siblings dW1 ∧
    infer_tests_from_repeated_siblings dW1 ≠ [] ∧
    (infer_tests_from_repeated_siblings dW1).length =
      ((rootChildren dW1).filter
        (fun c => 2 ≤ ((rootChildren dW1).map tagOf).count (tagOf c))).length :=
  c1_tier3_repeated_siblings dW1 rfl rfl ⟨"it", by decide⟩

/-! ## Claim C6: tier 4 and its cap -/

/-- C6 (amended): when the earlier tiers find nothing, no tag is shared by
two root children, the root has fewer than two element children, and there
are no element grandchildren, `parse_xml_report` returns exactly the
tier-4 result, and that result is capped: at most 100 records (the final
any-element enumeration's cap; the grandchildren step, excluded by the
last hypothesis, is uncapped — see the counterexample). -/
theorem c6_tier4_cap_amended (doc : Doc)
    (h1 : find_test_nodes doc = [])
    (h2 : tier2Records doc = [])
    (h3 : ∀ t, ((rootChildren doc).map tagOf).count t < 2)
    (h4 : (rootChildren doc).length < 2)
    (h5 : (rootChildren doc).flatMap directElemChildren = []) :
    parse_xml_report doc = infer_tests_more_aggressive doc ∧
    (infer_tests_more_aggressive doc).length ≤ 100 := by
  have hrepnil : ∀ root : Item, docFirstElem doc = some root →
      ((directElemChildren root).map tagOf).filter
        (fun u => 2 ≤ ((directElemChildren root).map tagOf).count u) = [] := by
    intro root hroot
    have hrc : rootChildren doc = directElemChildren root := by rw [rootChildren, hroot]
    rw [List.filter_eq_nil_iff]
    intro u hu hcnt
    have hlt := h3 u
    rw [hrc] at hlt
    exact absurd (of_decide_eq_true hcnt) (Nat.not_le_of_lt hlt)
  have htier3 : infer_tests_from_repeated_siblings doc = [] := by
    cases hroot : docFirstElem doc with
    | none => rw [infer_tests_from_repeated_siblings, hroot]
    | some root =>
      have hrc : rootChildren doc = directElemChildren root := by rw [rootChildren, hroot]
      rw [infer_tests_from_repeated_siblings, hroot]
      by_cases hcs : directElemChildren root = []
      · simp [hcs]
      · have hlen2 : ¬ (2 ≤ (directElemChildren root).length) := by
          rw [← hrc]
          exact Nat.not_le_of_lt h4
        simp only [List.isEmpty_eq_false.mpr hcs, Bool.false_eq_true, if_false,
          hrepnil root hroot, List.isEmpty_nil, not_true, hlen2, if_true, if_false]
  have htier4len : (infer_tests_more_aggressive doc).length ≤ 100 := by
    cases hroot : docFirstElem doc with
    | none =>
      rw [infer_tests_more_aggressive, hroot]
      simp
    | some root =>
      have hrc : rootChildren doc = directElemChildren root := by rw [rootChildren, hroot]
      have hgcs : (directElemChildren root).flatMap directElemChildren = [] := by
        rw [← hrc]
        exact h5
      have hlen2 : ¬ (2 ≤ (directElemChildren root).length) := by
        rw [← hrc]
        exact Nat.not_le_of_lt h4
      rw [infer_tests_more_aggressive, hroot]
      simp only [hrepnil root hroot, List.isEmpty_nil, not_true, if_false, hgcs,
        hlen2, if_true, List.isEmpty_eq_false, Bool.false_eq_true, not_false_iff]
      rw [List.length_map, List.enum_length]
      exact List.length_take_le 100 _
  have hp : parse_xml_report doc = infer_tests_more_aggressive doc := by
    rw [parse_xml_report]
    simp only [h1, h2, htier3, List.isEmpty_nil, eq_self_iff_true, not_true, if_false]
  exact ⟨hp, htier4len⟩

set_option maxRecDepth 8000 in
/-- C6 (counterexample): the claim's cap bound is false: a document whose
single root child has 201 element grandchildren satisfies the claim's
hypotheses (no shared tag, fewer than two root children, earlier tiers
empty), tier 4 is invoked, and it returns 201 records — more than any cap
in the 100–200 range — because the grandchildren step is uncapped. -/
theorem c6_tier4_cap_counterexample :
    (rootChildren cxDoc6).length < 2 ∧
    (rootChildren cxDoc6).map tagOf = ["c"] ∧
    find_test_nodes cxDoc6 = [] ∧
    tier2Records cxDoc6 = [] ∧
    parse_xml_report cxDoc6 = infer_tests_more_aggressive cxDoc6 ∧
    200 < (parse_xml_report cxDoc6).length := by
  have e1 : find_test_nodes cxDoc6 = [] := rfl
  have e2 : tier2Records cxDoc6 = [] := rfl
  have e3 : infer_tests_from_repeated_siblings cxDoc6 = [] := rfl
  have hp : parse_xml_report cxDoc6 = infer_tests_more_aggressive cxDoc6 := by
    rw [parse_xml_report]
    simp only [e1, e2, e3, List.isEmpty_nil, eq_self_iff_true, not_true, if_false]
  refine ⟨by decide, rfl, e1, e2, hp, ?_⟩
  rw [hp]
  decide

/-- C6 (witness): a one-element document with no children at all: tier 4
is invoked and the final enumeration returns a single record. -/
theorem c6_tier4_cap_amended_witness :
    parse_xml_report dW6 = infer_tests_more_aggressive dW6 ∧
    (infer_tests_more_aggressive dW6).length ≤ 100 :=
  c6_tier4_cap_amended dW6 rfl rfl
    (fun t => by
      rw [show ((rootChildren dW6).map tagOf) = ([] : List String) from rfl]
      simp only [List.count_nil]
      decide)
    (by decide) rfl

/-! ## Claim C9: the cascade never raises and is empty iff all tiers are -/

/-- C9 (claim): the empty input string parses to the empty document, on
which `parse_xml_report` returns no records (and, being a total Lean
function, the embedded cascade cannot raise); in general the cascade
returns `[]` exactly when all four tiers produce nothing. -/
theorem c9_empty_input_and_tiers :
    parse_xml_report [] = [] ∧
    ∀ doc : Doc, (parse_xml_report doc = [] ↔
      (find_test_nodes doc = [] ∧ tier2Records doc = [] ∧
       infer_tests_from_repeated_siblings doc = [] ∧
       infer_tests_more_aggressive doc = [])) := by
  refine ⟨rfl, ?_⟩
  intro doc
  constructor
  · intro h
    by_cases h1 : find_test_nodes doc = []
    · by_cases h2 : tier2Records doc = []
      · by_cases h3 : infer_tests_from_repeated_siblings doc = []
        · refine ⟨h1, h2, h3, ?_⟩
          rw [parse_xml_report] at h
          simpa only [h1, h2, h3, List.isEmpty_nil, eq_self_iff_true, not_true,
            if_false] using h
        · exfalso
          rw [parse_xml_report] at h
          simp only [h1, h2, List.isEmpty_nil, eq_self_iff_true, not_true, if_false,
            List.isEmpty_eq_false.mpr h3, Bool.false_eq_true, not_false_iff, if_true] at h
          exact h3 h
      · exfalso
        rw [parse_xml_report] at h
        simp only [h1, List.isEmpty_nil, eq_self_iff_true, not_true, if_false,
          List.isEmpty_eq_false.mpr h2, Bool.false_eq_true, not_false_iff, if_true] at h
        exact h2 h
    · exfalso
      rw [parse_xml_report] at h
      simp only [List.isEmpty_eq_false.mpr h1, Bool.false_eq_true, not_false_iff,
        if_true] at h
      rw [List.map_eq_nil_iff] at h
      exact h1 h
  · rintro ⟨e1, e2, e3, e4⟩
    rw [parse_xml_report]
    simp only [e1, e2, e3, e4, List.isEmpty_nil, eq_self_iff_true, not_true, if_false]

/-! ## Claim C10: message truncation in tiers 3 and 4 -/

/-- The shared message/details shape of tiers 3 and 4: the message is the
300-character truncation of the details. -/
theorem truncation_pair (combined : String) :
    (if combined = "" then "" else String.mk (combined.data.take 300)).length ≤ 300 ∧
    (if combined = "" then "" else String.mk (combined.data.take 300)) =
      String.mk ((if combined = "" then "" else combined).data.take 300) := by
  by_cases h : combined = ""
  · rw [if_pos h, if_pos h]
    exact ⟨by decide, rfl⟩
  · rw [if_neg h, if_neg h]
    exact ⟨List.length_take_le 300 _, rfl⟩

/-- Records synthesized by tier 3 truncate their message to 300
characters of the details. -/
theorem rsRecord_truncates (c : Item) (k : Nat) :
    (rsRecord c k).message.length ≤ 300 ∧
    (rsRecord c k).message = String.mk ((rsRecord c k).details.data.take 300) :=
  truncation_pair (combinedTextOf c)

/-- Records synthesized by tier 4 truncate their message to 300
characters of the details. -/
theorem node_to_test_truncates (n : Item) (k : Nat) :
    (node_to_test n k).message.length ≤ 300 ∧
    (node_to_test n k).message = String.mk ((node_to_test n k).details.data.take 300) :=
  truncation_pair (combinedTextAg n)

/-- Every record of the tier-3 loop is an `rsRecord`. -/
theorem mem_rsLoop (repeated : List String) (r : TestRecord) :
    ∀ (idx : Nat) (cs : List Item), r ∈ rsLoop repeated idx cs → ∃ c k, r = rsRecord c k := by
  intro idx cs
  induction cs generalizing idx with
  | nil => intro h; cases h
  | cons c rest ih =>
    intro h
    rw [rsLoop] at h
    by_cases hc : repeated.contains (tagOf c) = true
    · rw [if_pos hc] at h
      rcases List.mem_cons.mp h with rfl | h2
      · exact ⟨c, idx, rfl⟩
      · exact ih _ h2
    · rw [if_neg hc] at h
      exact ih _ h

/-- Every record of tier 4's first attempt is a `node_to_test`. -/
theorem mem_agLoop1 (repeated : List String) (r : TestRecord) :
    ∀ (idx : Nat) (cs : List Item), r ∈ agLoop1 repeated idx cs → ∃ c k, r = node_to_test c k := by
  intro idx cs
  induction cs generalizing idx with
  | nil => intro h; cases h
  | cons c rest ih =>
    intro h
    rw [agLoop1] at h
    by_cases hc : repeated.contains (tagOf c) = true
    · rw [if_pos hc] at h
      rcases List.mem_cons.mp h with rfl | h2
      · exact ⟨c, idx + 1, rfl⟩
      · exact ih _ h2
    · rw [if_neg hc] at h
      exact ih _ h

/-- Every record produced by tier 3 is an `rsRecord`. -/
theorem mem_tier3 (doc : Doc) (r : TestRecord)
    (h : r ∈ infer_tests_from_repeated_siblings doc) :
    ∃ c k, r = rsRecord c k := by
  rw [infer_tests_from_repeated_siblings] at h
  cases hroot : docFirstElem doc with
  | none =>
    rw [hroot] at h
    exact absurd h (List.not_mem_nil r)
  | some root =>
    rw [hroot] at h
    simp only [] at h
    repeat' split at h
    all_goals first
      | cases h
      | exact mem_rsLoop _ r _ _ h

/-- Every record produced by tier 4 is a `node_to_test`. -/
theorem mem_tier4 (doc : Doc) (r : TestRecord)
    (h : r ∈ infer_tests_more_aggressive doc) :
    ∃ n k, r = node_to_test n k := by
  rw [infer_tests_more_aggressive] at h
  cases hroot : docFirstElem doc with
  | none =>
    rw [hroot] at h
    exact absurd h (List.not_mem_nil r)
  | some root =>
    rw [hroot] at h
    simp only [] at h
    repeat' split at h
    all_goals first
      | cases h
      | exact mem_agLoop1 _ r _ _ h
      | (obtain ⟨p, hp, hrfl⟩ := List.mem_map.mp h
         exact ⟨p.2, p.1, hrfl.symm⟩)

/-- C10 (claim): every record synthesized by tier 3 or tier 4 has a
message of at most 300 characters, and the message is exactly the
300-character prefix of the details (so whenever the combined text is
non-empty, the message is a prefix of the details, which hold the full
untruncated text). -/
theorem c10_message_truncation (doc : Doc) (r : TestRecord)
    (h : r ∈ infer_tests_from_repeated_siblings doc ∨ r ∈ infer_tests_more_aggressive doc) :
    r.message.length ≤ 300 ∧ r.message = String.mk (r.details.data.take 300) := by
  rcases h with h | h
  · obtain ⟨c, k, rfl⟩ := mem_tier3 doc r h
    exact rsRecord_truncates c k
  · obtain ⟨n, k, rfl⟩ := mem_tier4 doc r h
    exact node_to_test_truncates n k

/-- C10 (witness): the record tier 4 produces for a childless one-element
document satisfies the truncation property. -/
theorem c10_message_truncation_witness :
    wRec10.message.length ≤ 300 ∧
    wRec10.message = String.mk (wRec10.details.data.take 300) :=
  c10_message_truncation dW10 wRec10 (Or.inr (by decide))
